import Mathlib

/-!
# Verification of the shopping-website core

Shallow embedding of the two core components of the repository:

* the client-side cart reducer (`src/context/CartContext.jsx`): a pure
  reducer over a list of cart line items, deciding sale-vs-regular unit
  pricing as items are added;
* the server-side image file-storage utilities
  (`server/utils/fileStorage.js`): unique filename generation, path
  resolution, deletion and replacement of product image files.

JavaScript numbers used as prices are modelled as rationals, quantities as
integers; the filesystem is modelled as an explicit state record threaded
through the file operations.
-/

namespace Shop

/-! ## Cart data model

A cart line item mirrors the object shape produced by the `ADD_ITEM`
branch of `cartReducer`: the payload fields (`id`, `price`, `salePrice`,
`onSaleQuantity`, `isOnSale`) spread into the item, with `price`,
`isOnSale` and `quantity` possibly overridden at the creation site. -/

structure CartItem where
  id : Nat
  price : ℚ
  salePrice : ℚ
  onSaleQuantity : Int
  isOnSale : Bool
  quantity : Int
deriving DecidableEq, Repr

/-- The product snapshot passed as the `ADD_ITEM` payload:
`{ id, price, salePrice, onSaleQuantity, isOnSale }`. -/
structure Product where
  id : Nat
  price : ℚ
  salePrice : ℚ
  onSaleQuantity : Int
  isOnSale : Bool
deriving DecidableEq, Repr

/-- The actions dispatched to `cartReducer`. -/
inductive CartAction where
  | ADD_ITEM (payload : Product)
  | REMOVE_ITEM (productId : Nat)
  | UPDATE_QUANTITY (id : Nat) (quantity : Int)
  | CLEAR_CART
deriving DecidableEq, Repr

/-- The cart state reducer (`cartReducer` in `CartContext.jsx`). -/
def cartReducer (state : List CartItem) (action : CartAction) : List CartItem :=
  match action with
  | .ADD_ITEM p =>
    let existingSaleItem := state.find? fun item => item.id == p.id && item.isOnSale
    let existingRegularItem := state.find? fun item => item.id == p.id && !item.isOnSale
    if p.isOnSale ∧ 0 < p.onSaleQuantity then
      match existingSaleItem with
      | some saleItem =>
        if saleItem.quantity < p.onSaleQuantity then
          -- can add more at sale price
          state.map fun item =>
            if item.id == p.id && item.isOnSale then
              { item with quantity := item.quantity + 1 }
            else item
        else
          -- sale quantity exceeded, add as regular item
          match existingRegularItem with
          | some _ =>
            state.map fun item =>
              if item.id == p.id && !item.isOnSale then
                { item with quantity := item.quantity + 1 }
              else item
          | none =>
            -- { ...action.payload, isOnSale: false, price, quantity: 1 }
            state ++ [{ id := p.id, price := p.price, salePrice := p.salePrice,
                        onSaleQuantity := p.onSaleQuantity, isOnSale := false, quantity := 1 }]
      | none =>
        -- { ...action.payload, price: salePrice, isOnSale: true, quantity: 1 }
        state ++ [{ id := p.id, price := p.salePrice, salePrice := p.salePrice,
                    onSaleQuantity := p.onSaleQuantity, isOnSale := true, quantity := 1 }]
    else
      match existingRegularItem with
      | some _ =>
        state.map fun item =>
          if item.id == p.id && !item.isOnSale then
            { item with quantity := item.quantity + 1 }
          else item
      | none =>
        -- { ...action.payload, isOnSale: false, quantity: 1 }
        state ++ [{ id := p.id, price := p.price, salePrice := p.salePrice,
                    onSaleQuantity := p.onSaleQuantity, isOnSale := false, quantity := 1 }]
  | .REMOVE_ITEM pid => state.filter fun item => item.id != pid
  | .UPDATE_QUANTITY pid q =>
    state.map fun item => if item.id == pid then { item with quantity := q } else item
  | .CLEAR_CART => []

/-- Provider-level `addToCart`: dispatches `ADD_ITEM` with the product as payload. -/
def addToCart (state : List CartItem) (product : Product) : List CartItem :=
  cartReducer state (.ADD_ITEM product)

/-- Provider-level `removeFromCart`: dispatches `REMOVE_ITEM`. -/
def removeFromCart (state : List CartItem) (productId : Nat) : List CartItem :=
  cartReducer state (.REMOVE_ITEM productId)

/-- Provider-level `updateQuantity`: removes the item when the new quantity
is below 1, otherwise dispatches `UPDATE_QUANTITY`. -/
def updateQuantity (state : List CartItem) (productId : Nat) (quantity : Int) : List CartItem :=
  if quantity < 1 then removeFromCart state productId
  else cartReducer state (.UPDATE_QUANTITY productId quantity)

/-- Provider-level `clearCart`. -/
def clearCart (state : List CartItem) : List CartItem :=
  cartReducer state .CLEAR_CART

/-- `cartTotal`: the reduce over cart items computing `total + price * quantity`. -/
def cartTotal (state : List CartItem) : ℚ :=
  state.foldl (fun total item => total + item.price * (item.quantity : ℚ)) 0

/-- Provider-level operations, for stating properties of operation sequences. -/
inductive CartOp where
  | add (product : Product)
  | remove (productId : Nat)
  | update (productId : Nat) (quantity : Int)
  | clear
deriving DecidableEq, Repr

def applyOp (state : List CartItem) : CartOp → List CartItem
  | .add p => addToCart state p
  | .remove pid => removeFromCart state pid
  | .update pid q => updateQuantity state pid q
  | .clear => clearCart state

/-- Run a sequence of cart operations starting from the empty cart. -/
def runOps (ops : List CartOp) : List CartItem :=
  ops.foldl applyOp []

/-! ## Cart invariants -/

/-- Bucket separation: for every product id the cart holds at most one
sale-priced and at most one regular-priced line, i.e. no two lines agree
on both the id and the pricing bucket. -/
def BucketSep (state : List CartItem) : Prop :=
  state.Pairwise fun a b => ¬(a.id = b.id ∧ a.isOnSale = b.isOnSale)

instance (state : List CartItem) : Decidable (BucketSep state) := by
  unfold BucketSep
  exact List.instDecidablePairwise state

/-- Quantity of the sale-priced line for a product (0 when absent). -/
def saleQuantity (state : List CartItem) (productId : Nat) : Int :=
  match state.find? (fun item => item.id == productId && item.isOnSale) with
  | some item => item.quantity
  | none => 0

/-- Quantity of the regular-priced line for a product (0 when absent). -/
def regularQuantity (state : List CartItem) (productId : Nat) : Int :=
  match state.find? (fun item => item.id == productId && !item.isOnSale) with
  | some item => item.quantity
  | none => 0

/-- Iterated `addToCart` of the same product snapshot. -/
def addNTimes (p : Product) : Nat → List CartItem → List CartItem
  | 0, s => s
  | n + 1, s => addNTimes p n (addToCart s p)

/-- Fallback item used only as the default of positional lookups. -/
def dummyItem : CartItem := ⟨0, 0, 0, 0, false, 0⟩

/-! ## File storage model (`server/utils/fileStorage.js`)

Product image files live in two directories derived from a fixed base:
`uploads/` for originals and `thumbnails/` for thumbnails.  An absolute
path produced by `getAbsoluteImagePath` is therefore determined by the
variant together with the filename; we model it as such a pair.  The
filesystem is a state record telling which files exist, which `unlink`
calls fail (throw), and with what error message. -/

/-- An absolute on-disk location of a product image file, as produced by
`getAbsoluteImagePath(filename, type)`. -/
inductive ImageFile where
  | original (filename : String)
  | thumbnail (filename : String)
deriving DecidableEq, Repr

/-- Filesystem state: which image files exist on disk, which `unlink`
calls throw, and the thrown error's message. -/
structure FileSystem where
  existsSync : ImageFile → Bool
  unlinkFails : ImageFile → Bool
  errMsg : ImageFile → String

/-- JavaScript truthiness of a nullable string (`null`, `undefined` and
`""` are falsy). -/
def truthy : Option String → Bool
  | none => false
  | some s => !s.isEmpty

/-- JavaScript `String.prototype.startsWith`. -/
def startsWith (s pre : String) : Bool :=
  pre.data.isPrefixOf s.data

/-- Node `path.basename` restricted to the inputs reachable here (POSIX
paths): drop trailing slashes, then take the final path component. -/
def basename (s : String) : String :=
  ⟨(((s.data.reverse.dropWhile (· == '/')).takeWhile (· != '/')).reverse)⟩

/-- `extractFilenameFromPath(relativePath)`: `null` for a falsy input or
one not starting with `/images/products/`, else the basename. -/
def extractFilenameFromPath (relativePath : Option String) : Option String :=
  match relativePath with
  | none => none
  | some s =>
    if s.isEmpty then none
    else if startsWith s "/images/products/" then some (basename s)
    else none

/-- Result shape of `deleteProductImage`. -/
structure DeleteResult where
  success : Bool
  deletedFiles : List ImageFile
  errors : List String
deriving DecidableEq, Repr

/-- One guarded deletion step (the `try { if (fs.existsSync(p)) await
unlink(p) ... } catch` block used for both the original and the
thumbnail): returns the new filesystem, the files deleted, the errors
produced, and whether the step succeeded. -/
def deleteStep (fs : FileSystem) (f : ImageFile) (label : String) :
    FileSystem × List ImageFile × List String × Bool :=
  if fs.existsSync f then
    if fs.unlinkFails f then
      (fs, [], [label ++ fs.errMsg f], false)
    else
      ({ fs with existsSync := fun g => if g = f then false else fs.existsSync g }, [f], [], true)
  else
    (fs, [], [], true)

/-- `deleteProductImage(relativePath)`: deletes the original and the
thumbnail file of an image independently, collecting results. -/
def deleteProductImage (fs : FileSystem) (relativePath : Option String) :
    FileSystem × DeleteResult :=
  if truthy relativePath = false then (fs, ⟨true, [], []⟩)
  else
    match extractFilenameFromPath relativePath with
    | none => (fs, ⟨false, [], ["Invalid image path provided"]⟩)
    | some filename =>
      if filename.isEmpty then (fs, ⟨false, [], ["Invalid image path provided"]⟩)
      else
        let originalPath := ImageFile.original filename
        let thumbnailPath := ImageFile.thumbnail filename
        let step1 := deleteStep fs originalPath "Failed to delete original image: "
        let step2 := deleteStep step1.1 thumbnailPath "Failed to delete thumbnail image: "
        (step2.1,
         ⟨step1.2.2.2 && step2.2.2.2,
          step1.2.1 ++ step2.2.1,
          step1.2.2.1 ++ step2.2.2.1⟩)

/-- The `oldImageCleanup` component of a `replaceProductImage` result. -/
structure CleanupInfo where
  attempted : Bool
  success : Bool
  deletedFiles : List ImageFile
  errors : List String
deriving DecidableEq, Repr

/-- Result shape of `replaceProductImage`. -/
structure ReplaceResult where
  success : Bool
  newImagePath : Option String
  oldImageCleanup : CleanupInfo
  errors : List String
deriving DecidableEq, Repr

/-- `replaceProductImage(oldImagePath, newImagePath)`: validate the new
image (path present, resolvable filename, file exists on disk), then
best-effort clean up the old image; cleanup problems never flip the
overall `success`. -/
def replaceProductImage (fs : FileSystem) (oldImagePath newImagePath : Option String) :
    FileSystem × ReplaceResult :=
  let init : ReplaceResult := ⟨true, newImagePath, ⟨false, false, [], []⟩, []⟩
  if truthy newImagePath = false then
    (fs, { init with success := false, errors := ["New image path is required"] })
  else
    match extractFilenameFromPath newImagePath with
    | none => (fs, { init with success := false, errors := ["Invalid new image path provided"] })
    | some newFilename =>
      if newFilename.isEmpty then
        (fs, { init with success := false, errors := ["Invalid new image path provided"] })
      else if fs.existsSync (ImageFile.original newFilename) = false then
        (fs, { init with success := false, errors := ["New image file does not exist"] })
      else if truthy oldImagePath ∧ oldImagePath ≠ newImagePath then
        let del := deleteProductImage fs oldImagePath
        (del.1, { init with
                  oldImageCleanup :=
                    ⟨true, del.2.success, del.2.deletedFiles, del.2.errors⟩ })
      else
        (fs, init)

/-! ## Unique filename generation (`generateUniqueFilename`)

`Date.now()` is modelled as a natural-number parameter and
`crypto.randomBytes(8).toString('hex')` as a string parameter, making the
function a deterministic function of `(timestamp, randomHash, name)`. -/

/-- Decimal digit character. -/
def digitChar (d : Nat) : Char :=
  match d with
  | 0 => '0' | 1 => '1' | 2 => '2' | 3 => '3' | 4 => '4'
  | 5 => '5' | 6 => '6' | 7 => '7' | 8 => '8' | 9 => '9'
  | _ => '*'

/-- Decimal digit list of a natural number (most significant first). -/
def natDigits (n : Nat) (acc : List Char) : List Char :=
  if h : n < 10 then digitChar n :: acc
  else natDigits (n / 10) (digitChar (n % 10) :: acc)
decreasing_by exact Nat.div_lt_self (Nat.lt_of_lt_of_le (by omega) (Nat.le_of_not_lt h)) (by omega)

/-- Decimal string representation of a natural number, modelling the JS
template interpolation of the numeric timestamp. -/
def natRepr (n : Nat) : String := ⟨natDigits n []⟩

/-- JS `toLowerCase` composed with the sanitizing replacement
`replace(/[^a-z0-9.]/g, '-')`, per character. -/
def sanitizeChar (c : Char) : Char :=
  let lc := c.toLower
  if ('a' ≤ lc ∧ lc ≤ 'z') ∨ ('0' ≤ lc ∧ lc ≤ '9') ∨ lc = '.' then lc else '-'

/-- The second regex replacement (dash-run collapsing): collapse every
run of consecutive dashes into a single dash. -/
def collapseDashes : List Char → List Char
  | [] => []
  | [c] => [c]
  | c :: d :: cs =>
    if c = '-' ∧ d = '-' then collapseDashes (d :: cs)
    else c :: collapseDashes (d :: cs)

/-- The sanitized original filename: lower-cased, characters outside
`[a-z0-9.]` replaced by dashes, dash runs collapsed. -/
def sanitize (s : String) : String :=
  ⟨collapseDashes (s.data.map sanitizeChar)⟩

/-- Index of the last `'.'` in a character list, if any. -/
def lastDotIdx (l : List Char) : Option Nat :=
  match l.reverse.findIdx? (· == '.') with
  | none => none
  | some j => some (l.length - 1 - j)

/-- Node `path.extname` restricted to slash-free inputs (the sanitized
name contains no `/`): the suffix from the last dot, except that a
leading-dot-only name (`.bashrc`), a name without dots, and `".."` have
no extension. -/
def extname (s : String) : String :=
  match lastDotIdx s.data with
  | none => ""
  | some d =>
    if d = 0 then ""
    else if s.data = ['.', '.'] then ""
    else ⟨s.data.drop d⟩

/-- Node `path.basename(s, ext)` with `ext = extname s`, restricted to
slash-free inputs: the name with its extension removed. -/
def nameWithoutExt (s : String) : String :=
  match lastDotIdx s.data with
  | none => s
  | some d =>
    if d = 0 then s
    else if s.data = ['.', '.'] then s
    else ⟨s.data.take d⟩

/-- `generateUniqueFilename(originalFilename)` as a function of the
timestamp and the random hex string it samples. -/
def generateUniqueFilename (timestamp : Nat) (randomHash : String)
    (originalFilename : String) : String :=
  let sanitizedName := sanitize originalFilename
  let ext := extname sanitizedName
  let nameNoExt := nameWithoutExt sanitizedName
  let truncatedName : String := ⟨nameNoExt.data.take 40⟩
  natRepr timestamp ++ "-" ++ randomHash ++ "-" ++ truncatedName ++ ext

end Shop

namespace Shop

/-- A filesystem with no product image files; `unlink` never fails. -/
def fsEmpty : FileSystem := ⟨fun _ => false, fun _ => false, fun _ => ""⟩

/-- A filesystem holding exactly the original file `new.jpg`; `unlink`
never fails. -/
def fsNew : FileSystem :=
  ⟨fun f => decide (f = ImageFile.original "new.jpg"), fun _ => false, fun _ => ""⟩

/-- A filesystem holding the original and thumbnail of `pic.jpg` and the
original `new.jpg`; `unlink` never fails. -/
def fsPic : FileSystem :=
  ⟨fun f => decide (f = ImageFile.original "pic.jpg" ∨ f = ImageFile.thumbnail "pic.jpg" ∨
      f = ImageFile.original "new.jpg"),
   fun _ => false, fun _ => ""⟩

/-! ## Cart lemmas -/

theorem bump_id (c : Prop) [Decidable c] (item : CartItem) (q : Int) :
    (if c then { item with quantity := q } else item).id = item.id := by
  split <;> rfl

theorem bump_isOnSale (c : Prop) [Decidable c] (item : CartItem) (q : Int) :
    (if c then { item with quantity := q } else item).isOnSale = item.isOnSale := by
  split <;> rfl

theorem bucketSep_map {f : CartItem → CartItem}
    (hid : ∀ i, (f i).id = i.id) (hos : ∀ i, (f i).isOnSale = i.isOnSale)
    {s : List CartItem} (h : BucketSep s) : BucketSep (s.map f) := by
  unfold BucketSep at h ⊢
  rw [List.pairwise_map]
  exact h.imp fun {a b} hab => by rw [hid, hos, hid, hos]; exact hab

theorem bucketSep_append_single {s : List CartItem} {x : CartItem} (h : BucketSep s)
    (hx : ∀ a ∈ s, ¬(a.id = x.id ∧ a.isOnSale = x.isOnSale)) : BucketSep (s ++ [x]) := by
  unfold BucketSep at h ⊢
  rw [List.pairwise_append]
  refine ⟨h, List.pairwise_singleton _ _, ?_⟩
  intro a ha b hb
  simp only [List.mem_singleton] at hb
  subst hb
  exact hx a ha

theorem bucketSep_filter (p : CartItem → Bool) {s : List CartItem} (h : BucketSep s) :
    BucketSep (s.filter p) :=
  List.Pairwise.sublist (List.filter_sublist s) h

/-- `addToCart` preserves bucket separation. -/
theorem bucketSep_addToCart (s : List CartItem) (p : Product) (h : BucketSep s) :
    BucketSep (addToCart s p) := by
  unfold addToCart cartReducer
  dsimp only
  split
  · split
    · split
      · exact bucketSep_map (fun i => bump_id _ _ _) (fun i => bump_isOnSale _ _ _) h
      · split
        · exact bucketSep_map (fun i => bump_id _ _ _) (fun i => bump_isOnSale _ _ _) h
        · rename_i hnone
          refine bucketSep_append_single h ?_
          intro a ha hcol
          have := (List.find?_eq_none.mp hnone) a ha
          simp only [Bool.not_eq_true, Bool.and_eq_true, beq_iff_eq, Bool.not_eq_true'] at this
          exact this ⟨by simpa using hcol.1, by simpa using hcol.2⟩
    · rename_i hnone
      refine bucketSep_append_single h ?_
      intro a ha hcol
      have := (List.find?_eq_none.mp hnone) a ha
      simp only [Bool.not_eq_true, Bool.and_eq_true, beq_iff_eq] at this
      exact this ⟨by simpa using hcol.1, by simpa using hcol.2⟩
  · split
    · exact bucketSep_map (fun i => bump_id _ _ _) (fun i => bump_isOnSale _ _ _) h
    · rename_i hnone
      refine bucketSep_append_single h ?_
      intro a ha hcol
      have := (List.find?_eq_none.mp hnone) a ha
      simp only [Bool.not_eq_true, Bool.and_eq_true, beq_iff_eq, Bool.not_eq_true'] at this
      exact this ⟨by simpa using hcol.1, by simpa using hcol.2⟩


/-- `removeFromCart` preserves bucket separation. -/
theorem bucketSep_removeFromCart (s : List CartItem) (pid : Nat) (h : BucketSep s) :
    BucketSep (removeFromCart s pid) :=
  bucketSep_filter _ h

/-- `updateQuantity` preserves bucket separation. -/
theorem bucketSep_updateQuantity (s : List CartItem) (pid : Nat) (q : Int) (h : BucketSep s) :
    BucketSep (updateQuantity s pid q) := by
  unfold updateQuantity
  split
  · exact bucketSep_removeFromCart s pid h
  · exact bucketSep_map (fun i => bump_id _ _ _) (fun i => bump_isOnSale _ _ _) h

theorem bucketSep_applyOp (s : List CartItem) (op : CartOp) (h : BucketSep s) :
    BucketSep (applyOp s op) := by
  cases op with
  | add p => exact bucketSep_addToCart s p h
  | remove pid => exact bucketSep_removeFromCart s pid h
  | update pid q => exact bucketSep_updateQuantity s pid q h
  | clear => exact List.Pairwise.nil

theorem bucketSep_foldl (ops : List CartOp) (s : List CartItem) (h : BucketSep s) :
    BucketSep (ops.foldl applyOp s) := by
  induction ops generalizing s with
  | nil => exact h
  | cons op rest ih => exact ih _ (bucketSep_applyOp s op h)


theorem find?_map_keys (pred : CartItem → Bool) (f : CartItem → CartItem)
    (hpf : ∀ i, pred (f i) = pred i) (s : List CartItem) :
    (s.map f).find? pred = (s.find? pred).map f := by
  rw [List.find?_map]
  have : pred ∘ f = pred := funext hpf
  rw [this]

/-- One `addToCart` keeps the sale line at or below the advertised cap. -/
theorem saleQuantity_addToCart_le (s : List CartItem) (p : Product)
    (h : saleQuantity s p.id ≤ p.onSaleQuantity) :
    saleQuantity (addToCart s p) p.id ≤ p.onSaleQuantity := by
  unfold addToCart cartReducer
  dsimp only
  split
  case isTrue hsale =>
    split
    case h_1 saleItem hfs =>
      have hpred := List.find?_some hfs
      have hOnSale : saleItem.isOnSale = true := by
        simp only [Bool.and_eq_true, beq_iff_eq] at hpred
        exact hpred.2
      split
      case isTrue hlt =>
        unfold saleQuantity
        rw [find?_map_keys _ _ (fun i => by simp only [bump_id, bump_isOnSale]), hfs]
        simp only [Option.map_some']
        rw [if_pos (List.find?_some hfs)]
        show saleItem.quantity + 1 ≤ p.onSaleQuantity
        omega
      case isFalse hge =>
        unfold saleQuantity at h
        rw [hfs] at h
        cases hfr : s.find? (fun item => item.id == p.id && !item.isOnSale) with
        | some rit =>
          dsimp only
          unfold saleQuantity
          rw [find?_map_keys _ _ (fun i => by simp only [bump_id, bump_isOnSale]), hfs]
          simp only [Option.map_some']
          rw [if_neg (by simp [hOnSale])]
          exact h
        | none =>
          dsimp only
          unfold saleQuantity
          rw [List.find?_append, hfs]
          simp only [Option.or_some]
          exact h
    case h_2 hfs =>
      unfold saleQuantity
      rw [List.find?_append, hfs]
      simp only [Option.none_or]
      rw [List.find?_cons_of_pos _ (by simp)]
      show (1 : Int) ≤ p.onSaleQuantity
      omega
  case isFalse hsale =>
    cases hfr : s.find? (fun item => item.id == p.id && !item.isOnSale) with
    | some rit =>
      dsimp only
      unfold saleQuantity at h ⊢
      rw [find?_map_keys _ _ (fun i => by simp only [bump_id, bump_isOnSale])]
      cases hfs : s.find? (fun item => item.id == p.id && item.isOnSale) with
      | some it =>
        rw [hfs] at h
        simp only [Option.map_some']
        have hOnSale : it.isOnSale = true := by
          have := List.find?_some hfs
          simp only [Bool.and_eq_true, beq_iff_eq] at this
          exact this.2
        rw [if_neg (by simp [hOnSale])]
        exact h
      | none =>
        rw [hfs] at h
        simp only [Option.map_none']
        exact h
    | none =>
      dsimp only
      unfold saleQuantity at h ⊢
      rw [List.find?_append]
      cases hfs : s.find? (fun item => item.id == p.id && item.isOnSale) with
      | some it =>
        rw [hfs] at h
        simp only [Option.or_some]
        exact h
      | none =>
        rw [hfs] at h
        simp only [Option.none_or]
        rw [List.find?_cons_of_neg _ (by simp)]
        simp only [List.find?_nil]
        exact h


/-- When the sale line already sits at the cap, an add lands in the
regular bucket and leaves the sale line untouched. -/
theorem addToCart_atCap (s : List CartItem) (p : Product)
    (hcap : saleQuantity s p.id = p.onSaleQuantity) :
    regularQuantity (addToCart s p) p.id = regularQuantity s p.id + 1 ∧
    saleQuantity (addToCart s p) p.id = saleQuantity s p.id := by
  unfold addToCart cartReducer
  dsimp only
  split
  case isTrue hsale =>
    split
    case h_1 saleItem hfs =>
      have hpred := List.find?_some hfs
      have hOnSale : saleItem.isOnSale = true := by
        simp only [Bool.and_eq_true, beq_iff_eq] at hpred
        exact hpred.2
      unfold saleQuantity at hcap
      rw [hfs] at hcap
      split
      case isTrue hlt =>
        exfalso
        dsimp only at hcap
        omega
      case isFalse hge =>
        cases hfr : s.find? (fun item => item.id == p.id && !item.isOnSale) with
        | some rit =>
          dsimp only
          constructor
          · unfold regularQuantity
            rw [find?_map_keys _ _ (fun i => by simp only [bump_id, bump_isOnSale]), hfr]
            simp only [Option.map_some']
            rw [if_pos (List.find?_some hfr)]
          · unfold saleQuantity
            rw [find?_map_keys _ _ (fun i => by simp only [bump_id, bump_isOnSale]), hfs]
            simp only [Option.map_some']
            rw [if_neg (by simp [hOnSale])]
        | none =>
          dsimp only
          constructor
          · unfold regularQuantity
            rw [List.find?_append, hfr]
            simp only [Option.none_or]
            rw [List.find?_cons_of_pos _ (by simp)]
            rfl
          · unfold saleQuantity
            rw [List.find?_append, hfs]
            rfl
    case h_2 hfs =>
      exfalso
      unfold saleQuantity at hcap
      rw [hfs] at hcap
      dsimp only at hcap
      omega
  case isFalse hsale =>
    cases hfr : s.find? (fun item => item.id == p.id && !item.isOnSale) with
    | some rit =>
      dsimp only
      constructor
      · unfold regularQuantity
        rw [find?_map_keys _ _ (fun i => by simp only [bump_id, bump_isOnSale]), hfr]
        simp only [Option.map_some']
        rw [if_pos (List.find?_some hfr)]
      · unfold saleQuantity
        rw [find?_map_keys _ _ (fun i => by simp only [bump_id, bump_isOnSale])]
        cases hfs : s.find? (fun item => item.id == p.id && item.isOnSale) with
        | some it =>
          have hOnSale : it.isOnSale = true := by
            have := List.find?_some hfs
            simp only [Bool.and_eq_true, beq_iff_eq] at this
            exact this.2
          simp only [Option.map_some']
          rw [if_neg (by simp [hOnSale])]
        | none => rfl
    | none =>
      dsimp only
      constructor
      · unfold regularQuantity
        rw [List.find?_append, hfr]
        simp only [Option.none_or]
        rw [List.find?_cons_of_pos _ (by simp)]
        rfl
      · unfold saleQuantity
        rw [List.find?_append]
        cases hfs : s.find? (fun item => item.id == p.id && item.isOnSale) with
        | some it => rfl
        | none =>
          simp only [Option.none_or]
          rw [List.find?_cons_of_neg _ (by simp)]
          rfl


theorem saleQuantity_addNTimes_le (p : Product) (k : Nat) :
    ∀ s : List CartItem, saleQuantity s p.id ≤ p.onSaleQuantity →
      saleQuantity (addNTimes p k s) p.id ≤ p.onSaleQuantity := by
  induction k with
  | zero => exact fun s h => h
  | succ n ih => exact fun s h => ih (addToCart s p) (saleQuantity_addToCart_le s p h)

/-- C5: bucket separation is preserved by every cart operation and holds in
every state reachable from the empty cart. -/
theorem cart_bucket_separation :
    (∀ (s : List CartItem) (op : CartOp), BucketSep s → BucketSep (applyOp s op)) ∧
    (∀ ops : List CartOp, BucketSep (runOps ops)) :=
  ⟨bucketSep_applyOp, fun ops => bucketSep_foldl ops [] List.Pairwise.nil⟩

theorem cart_bucket_separation_witness :
    BucketSep (applyOp [⟨1, 80, 80, 2, true, 1⟩] (CartOp.add ⟨1, 100, 80, 2, true⟩)) :=
  cart_bucket_separation.1 _ _ (by decide)

/-- C1 (counterexample): a bucket-separated start state whose sale line already
exceeds the advertised cap stays above the cap after an `addToCart`, refuting
the claim for arbitrary bucket-separated start states. -/
theorem sale_cap_counterexample :
    BucketSep [({ id := 1, price := 80, salePrice := 80, onSaleQuantity := 2,
                  isOnSale := true, quantity := 3 } : CartItem)] ∧
    (2 : Int) <
      saleQuantity
        (addToCart
          [{ id := 1, price := 80, salePrice := 80, onSaleQuantity := 2,
             isOnSale := true, quantity := 3 }]
          { id := 1, price := 100, salePrice := 80, onSaleQuantity := 2, isOnSale := true })
        1 := by
  decide

/-- C1 (amended): if in addition the sale line starts at or below the cap
`N = onSaleQuantity`, then along any sequence of `addToCart` calls for the
product it never exceeds `N`, and an add arriving while the sale line sits at
`N` increments the regular line instead of being rejected, leaving the sale
line unchanged. -/
theorem sale_cap_invariant (p : Product) (s : List CartItem)
    (_hsep : BucketSep s) (hstart : saleQuantity s p.id ≤ p.onSaleQuantity) :
    (∀ k, saleQuantity (addNTimes p k s) p.id ≤ p.onSaleQuantity) ∧
    (saleQuantity s p.id = p.onSaleQuantity →
      regularQuantity (addToCart s p) p.id = regularQuantity s p.id + 1 ∧
      saleQuantity (addToCart s p) p.id = saleQuantity s p.id) :=
  ⟨fun k => saleQuantity_addNTimes_le p k s hstart,
   fun hcap => addToCart_atCap s p hcap⟩

theorem sale_cap_invariant_witness :
    saleQuantity (addNTimes ⟨1, 100, 80, 2, true⟩ 5 []) 1 ≤ 2 :=
  (sale_cap_invariant ⟨1, 100, 80, 2, true⟩ [] (by decide) (by decide)).1 5

/-- C4: three adds of a product with price 100, sale price 80 and two sale
units left produce a sale line of quantity 2 at 80 and a regular line of
quantity 1 at 100, with total 260. -/
theorem three_adds_split_buckets (id : Nat) :
    addToCart (addToCart (addToCart [] ⟨id, 100, 80, 2, true⟩) ⟨id, 100, 80, 2, true⟩)
        ⟨id, 100, 80, 2, true⟩ =
      [⟨id, 80, 80, 2, true, 2⟩, ⟨id, 100, 80, 2, false, 1⟩] ∧
    cartTotal
        (addToCart (addToCart (addToCart [] ⟨id, 100, 80, 2, true⟩) ⟨id, 100, 80, 2, true⟩)
          ⟨id, 100, 80, 2, true⟩) = 260 := by
  have h : addToCart (addToCart (addToCart [] ⟨id, 100, 80, 2, true⟩) ⟨id, 100, 80, 2, true⟩)
      ⟨id, 100, 80, 2, true⟩ =
      [⟨id, 80, 80, 2, true, 2⟩, ⟨id, 100, 80, 2, false, 1⟩] := by
    simp [addToCart, cartReducer]
  refine ⟨h, ?_⟩
  rw [h]
  unfold cartTotal
  norm_num

theorem getD_map_of_lt (f : CartItem → CartItem) (s : List CartItem) (i : Nat) (d : CartItem)
    (h : i < s.length) : (s.map f).getD i d = f (s.getD i d) := by
  induction s generalizing i with
  | nil => simp at h
  | cons a t ih =>
    cases i with
    | zero => rfl
    | succ n => exact ih n (by simpa using h)

/-- C10: for a new quantity of at least 1, `updateQuantity` sets the quantity
of every line with the given product id (both buckets) to the new value,
changes nothing else, and performs no sale-cap check, so it can push a sale
line past `onSaleQuantity`. -/
theorem updateQuantity_updates_both_buckets (s : List CartItem) (pid : Nat) (q : Int)
    (hq : 1 ≤ q) :
    ((updateQuantity s pid q).length = s.length ∧
      ∀ i, i < s.length →
        (updateQuantity s pid q).getD i dummyItem =
          if (s.getD i dummyItem).id = pid
          then { s.getD i dummyItem with quantity := q }
          else s.getD i dummyItem) ∧
    (saleQuantity (updateQuantity [⟨1, 80, 80, 2, true, 1⟩] 1 99) 1 = 99 ∧
      ({ id := 1, price := 80, salePrice := 80, onSaleQuantity := 2,
         isOnSale := true, quantity := 1 } : CartItem).onSaleQuantity < 99) := by
  refine ⟨?_, by decide, by decide⟩
  have hnot : ¬(q < 1) := by omega
  unfold updateQuantity
  rw [if_neg hnot]
  unfold cartReducer
  refine ⟨by simp, ?_⟩
  intro i hi
  rw [getD_map_of_lt _ _ _ _ hi]
  dsimp only
  by_cases hid : (s.getD i dummyItem).id = pid
  · rw [if_pos (by simpa using hid), if_pos hid]
  · rw [if_neg (by simpa using hid), if_neg hid]

theorem updateQuantity_updates_both_buckets_witness :
    saleQuantity (updateQuantity [⟨1, 80, 80, 2, true, 1⟩] 1 99) 1 = 99 ∧
    ({ id := 1, price := 80, salePrice := 80, onSaleQuantity := 2,
       isOnSale := true, quantity := 1 } : CartItem).onSaleQuantity < 99 :=
  (updateQuantity_updates_both_buckets [⟨1, 80, 80, 2, true, 1⟩] 1 99 (by decide)).2

end Shop

namespace Shop

/-! ## File-storage lemmas -/

theorem extractFilenameFromPath_some {s f : String}
    (h : extractFilenameFromPath (some s) = some f) :
    s.isEmpty = false ∧ startsWith s "/images/products/" = true ∧ f = basename s := by
  unfold extractFilenameFromPath at h
  dsimp only at h
  by_cases h1 : s.isEmpty
  · rw [if_pos h1] at h; exact absurd h (by simp)
  · rw [if_neg h1] at h
    by_cases h2 : startsWith s "/images/products/" = true
    · rw [if_pos h2] at h
      refine ⟨by simpa using h1, h2, ?_⟩
      injection h with h3
      exact h3.symm
    · rw [if_neg h2] at h; exact absurd h (by simp)

theorem basename_ne_empty {s : String} (hc : ∃ c ∈ s.data, c ≠ '/') :
    (basename s).isEmpty = false := by
  obtain ⟨c, hmem, hne⟩ := hc
  unfold basename
  have hr : s.data.reverse.dropWhile (· == '/') ≠ [] := by
    intro hnil
    have := List.dropWhile_eq_nil_iff.mp hnil c (by simpa using hmem)
    simp at this
    exact hne this
  obtain ⟨a, t, hat⟩ := List.exists_cons_of_ne_nil hr
  have hhead : (a == '/') = false := by
    have h0 := List.head?_dropWhile_not (fun x => x == '/') s.data.reverse
    rw [hat] at h0
    simpa using h0
  rw [hat, List.takeWhile_cons_of_pos (by simpa using hhead)]
  by_contra habs
  rw [Bool.not_eq_false, String.isEmpty_iff] at habs
  have hdata := congrArg String.data habs
  simp at hdata

theorem startsWith_products_ne_all_slash {s : String}
    (h : startsWith s "/images/products/" = true) : ∃ c ∈ s.data, c ≠ '/' := by
  unfold startsWith at h
  have hpre : "/images/products/".data <+: s.data := List.isPrefixOf_iff_prefix.mp h
  obtain ⟨t, ht⟩ := hpre
  refine ⟨'i', ?_, by decide⟩
  rw [← ht]
  simp

/-- `unlink` never modifies the failure oracle or messages. -/
theorem deleteStep_unlinkFails (fs : FileSystem) (f : ImageFile) (l : String) :
    (deleteStep fs f l).1.unlinkFails = fs.unlinkFails := by
  unfold deleteStep
  split
  · split <;> rfl
  · rfl

theorem deleteStep_of_not_exists (fs : FileSystem) (f : ImageFile) (l : String)
    (h : fs.existsSync f = false) :
    deleteStep fs f l = (fs, [], [], true) := by
  unfold deleteStep
  rw [if_neg (by simp [h])]

theorem deleteStep_nofail (fs : FileSystem) (f : ImageFile) (l : String)
    (h : fs.unlinkFails f = false) :
    (deleteStep fs f l).2 = (if fs.existsSync f then [f] else [], [], true) ∧
    ∀ g, (deleteStep fs f l).1.existsSync g = if g = f then false else fs.existsSync g := by
  unfold deleteStep
  by_cases he : fs.existsSync f
  · rw [if_pos he, if_neg (by simp [h]), if_pos he]
    exact ⟨rfl, fun g => rfl⟩
  · rw [if_neg he, if_neg (Bool.not_eq_true _ ▸ he)]
    refine ⟨rfl, fun g => ?_⟩
    split
    · next hg => rw [hg]; simpa using he
    · rfl

theorem deleteProductImage_valid (fs : FileSystem) (s fname : String)
    (hex : extractFilenameFromPath (some s) = some fname) (hne : fname.isEmpty = false) :
    deleteProductImage fs (some s) =
      ((deleteStep (deleteStep fs (ImageFile.original fname) "Failed to delete original image: ").1
          (ImageFile.thumbnail fname) "Failed to delete thumbnail image: ").1,
       ⟨(deleteStep fs (ImageFile.original fname) "Failed to delete original image: ").2.2.2 &&
          (deleteStep (deleteStep fs (ImageFile.original fname) "Failed to delete original image: ").1
            (ImageFile.thumbnail fname) "Failed to delete thumbnail image: ").2.2.2,
        (deleteStep fs (ImageFile.original fname) "Failed to delete original image: ").2.1 ++
          (deleteStep (deleteStep fs (ImageFile.original fname) "Failed to delete original image: ").1
            (ImageFile.thumbnail fname) "Failed to delete thumbnail image: ").2.1,
        (deleteStep fs (ImageFile.original fname) "Failed to delete original image: ").2.2.1 ++
          (deleteStep (deleteStep fs (ImageFile.original fname) "Failed to delete original image: ").1
            (ImageFile.thumbnail fname) "Failed to delete thumbnail image: ").2.2.1⟩) := by
  obtain ⟨hse, hsw, hf⟩ := extractFilenameFromPath_some hex
  unfold deleteProductImage
  rw [if_neg (by simp [truthy, hse]), hex]
  dsimp only
  rw [if_neg (by simp [hne])]


theorem isEmpty_false_of_mem {s : String} {c : Char} (h : c ∈ s.data) : s.isEmpty = false := by
  by_contra habs
  rw [Bool.not_eq_false, String.isEmpty_iff] at habs
  rw [habs] at h
  simp at h

theorem deleteStep_errMsg (fs : FileSystem) (f : ImageFile) (l : String) :
    (deleteStep fs f l).1.errMsg = fs.errMsg := by
  unfold deleteStep
  split
  · split <;> rfl
  · rfl

theorem deleteStep_spec (fs : FileSystem) (f : ImageFile) (l : String) :
    (deleteStep fs f l).2.2.2 = !(fs.existsSync f && fs.unlinkFails f) ∧
    (deleteStep fs f l).2.1 =
      (if (fs.existsSync f && !fs.unlinkFails f) = true then [f] else []) ∧
    (deleteStep fs f l).2.2.1 =
      (if (fs.existsSync f && fs.unlinkFails f) = true then [l ++ fs.errMsg f] else []) ∧
    ∀ g, (deleteStep fs f l).1.existsSync g =
      if g = f then (fs.existsSync f && fs.unlinkFails f) else fs.existsSync g := by
  unfold deleteStep
  by_cases he : fs.existsSync f
  · by_cases hu : fs.unlinkFails f
    · rw [if_pos he, if_pos hu]
      refine ⟨by simp [he, hu], by simp [he, hu], by simp [he, hu], fun g => ?_⟩
      split
      · next hg => rw [hg, he, hu]; rfl
      · rfl
    · rw [if_pos he, if_neg hu]
      refine ⟨by simp [he, Bool.not_eq_true _ ▸ hu],
        by simp [he, Bool.not_eq_true _ ▸ hu],
        by simp [Bool.not_eq_true _ ▸ hu], fun g => ?_⟩
      dsimp only
      split
      · next hg => simp [Bool.not_eq_true _ ▸ hu]
      · rfl
  · rw [if_neg he]
    have he' : fs.existsSync f = false := Bool.not_eq_true _ ▸ he
    refine ⟨by simp [he'], by simp [he'], by simp [he'], fun g => ?_⟩
    split
    · next hg => rw [hg, he']; simp
    · rfl

/-- A falsy path is a successful no-op. -/
theorem deleteProductImage_falsy (fs : FileSystem) (rp : Option String)
    (h : truthy rp = false) : deleteProductImage fs rp = (fs, ⟨true, [], []⟩) := by
  unfold deleteProductImage
  rw [if_pos h]

/-- A non-empty path outside the expected prefix fails with the single
invalid-path error and leaves the filesystem unchanged. -/
theorem deleteProductImage_invalid (fs : FileSystem) (s : String)
    (h1 : s.isEmpty = false) (h2 : startsWith s "/images/products/" = false) :
    deleteProductImage fs (some s) = (fs, ⟨false, [], ["Invalid image path provided"]⟩) := by
  unfold deleteProductImage
  rw [if_neg (by simp [truthy, h1])]
  have hex : extractFilenameFromPath (some s) = none := by
    unfold extractFilenameFromPath
    dsimp only
    rw [if_neg (by simp [h1]), if_neg (by simp [h2])]
  rw [hex]

/-- Deleting an image none of whose files exist is a successful no-op. -/
theorem deleteProductImage_absent (fs : FileSystem) (s fname : String)
    (hex : extractFilenameFromPath (some s) = some fname) (hne : fname.isEmpty = false)
    (ho : fs.existsSync (ImageFile.original fname) = false)
    (ht : fs.existsSync (ImageFile.thumbnail fname) = false) :
    deleteProductImage fs (some s) = (fs, ⟨true, [], []⟩) := by
  rw [deleteProductImage_valid fs s fname hex hne]
  rw [deleteStep_of_not_exists fs _ _ ho]
  rw [deleteStep_of_not_exists fs _ _ ht]
  rfl


theorem deleteProductImage_fname_ne {s fname : String}
    (hex : extractFilenameFromPath (some s) = some fname) : fname.isEmpty = false := by
  obtain ⟨he, hsw, hb⟩ := extractFilenameFromPath_some hex
  rw [hb]
  exact basename_ne_empty (startsWith_products_ne_all_slash hsw)

theorem deleteProductImage_valid_spec (fs : FileSystem) (s fname : String)
    (hex : extractFilenameFromPath (some s) = some fname) :
    ((deleteProductImage fs (some s)).2.success = false ↔
      (fs.existsSync (ImageFile.original fname) = true ∧
        fs.unlinkFails (ImageFile.original fname) = true) ∨
      (fs.existsSync (ImageFile.thumbnail fname) = true ∧
        fs.unlinkFails (ImageFile.thumbnail fname) = true)) ∧
    (deleteProductImage fs (some s)).2.deletedFiles =
      (if (fs.existsSync (ImageFile.original fname) &&
            !fs.unlinkFails (ImageFile.original fname)) = true
       then [ImageFile.original fname] else []) ++
      (if (fs.existsSync (ImageFile.thumbnail fname) &&
            !fs.unlinkFails (ImageFile.thumbnail fname)) = true
       then [ImageFile.thumbnail fname] else []) := by
  rw [deleteProductImage_valid fs s fname hex (deleteProductImage_fname_ne hex)]
  obtain ⟨hok1, hdel1, herr1, hfs1⟩ :=
    deleteStep_spec fs (ImageFile.original fname) "Failed to delete original image: "
  obtain ⟨hok2, hdel2, herr2, hfs2⟩ :=
    deleteStep_spec (deleteStep fs (ImageFile.original fname)
      "Failed to delete original image: ").1
      (ImageFile.thumbnail fname) "Failed to delete thumbnail image: "
  have hex2 : (deleteStep fs (ImageFile.original fname)
      "Failed to delete original image: ").1.existsSync (ImageFile.thumbnail fname) =
      fs.existsSync (ImageFile.thumbnail fname) := by
    rw [hfs1, if_neg (by simp)]
  have hfail2 : (deleteStep fs (ImageFile.original fname)
      "Failed to delete original image: ").1.unlinkFails (ImageFile.thumbnail fname) =
      fs.unlinkFails (ImageFile.thumbnail fname) := by
    rw [deleteStep_unlinkFails]
  dsimp only
  rw [hok1, hok2, hdel1, hdel2, hex2, hfail2]
  constructor
  · cases ha : fs.existsSync (ImageFile.original fname) <;>
      cases hb : fs.unlinkFails (ImageFile.original fname) <;>
      cases hc : fs.existsSync (ImageFile.thumbnail fname) <;>
      cases hd : fs.unlinkFails (ImageFile.thumbnail fname) <;> simp
  · rfl


theorem extractFilenameFromPath_valid (s : String) (h1 : s.isEmpty = false)
    (hsw : startsWith s "/images/products/" = true) :
    extractFilenameFromPath (some s) = some (basename s) := by
  unfold extractFilenameFromPath
  dsimp only
  rw [if_neg (by simp [h1]), if_pos hsw]

theorem deleteProductImage_post (fs : FileSystem) (s fname : String)
    (hex : extractFilenameFromPath (some s) = some fname) :
    (deleteProductImage fs (some s)).1.unlinkFails = fs.unlinkFails ∧
    (deleteProductImage fs (some s)).1.existsSync (ImageFile.original fname) =
      (fs.existsSync (ImageFile.original fname) && fs.unlinkFails (ImageFile.original fname)) ∧
    (deleteProductImage fs (some s)).1.existsSync (ImageFile.thumbnail fname) =
      (fs.existsSync (ImageFile.thumbnail fname) && fs.unlinkFails (ImageFile.thumbnail fname)) := by
  rw [deleteProductImage_valid fs s fname hex (deleteProductImage_fname_ne hex)]
  obtain ⟨hok1, hdel1, herr1, hfs1⟩ :=
    deleteStep_spec fs (ImageFile.original fname) "Failed to delete original image: "
  obtain ⟨hok2, hdel2, herr2, hfs2⟩ :=
    deleteStep_spec (deleteStep fs (ImageFile.original fname)
      "Failed to delete original image: ").1
      (ImageFile.thumbnail fname) "Failed to delete thumbnail image: "
  dsimp only
  refine ⟨?_, ?_, ?_⟩
  · rw [deleteStep_unlinkFails, deleteStep_unlinkFails]
  · rw [hfs2, if_neg (by simp), hfs1, if_pos rfl]
  · rw [hfs2, if_pos rfl, hfs1, if_neg (by simp), deleteStep_unlinkFails]

/-- C3: `deleteProductImage` is total and returns: success with empty results
on a falsy path; a single invalid-path error on a path outside the expected
prefix; otherwise it attempts both the original and thumbnail deletions
independently, `success` is false exactly when an attempted deletion failed,
and when neither file exists the call is a successful no-op. -/
theorem deleteProductImage_spec (fs : FileSystem) :
    (∀ rp, truthy rp = false → deleteProductImage fs rp = (fs, ⟨true, [], []⟩)) ∧
    (∀ s, s.isEmpty = false → startsWith s "/images/products/" = false →
      deleteProductImage fs (some s) = (fs, ⟨false, [], ["Invalid image path provided"]⟩)) ∧
    (∀ s fname, extractFilenameFromPath (some s) = some fname →
      ((deleteProductImage fs (some s)).2.success = false ↔
        (fs.existsSync (ImageFile.original fname) = true ∧
          fs.unlinkFails (ImageFile.original fname) = true) ∨
        (fs.existsSync (ImageFile.thumbnail fname) = true ∧
          fs.unlinkFails (ImageFile.thumbnail fname) = true)) ∧
      (deleteProductImage fs (some s)).2.deletedFiles =
        (if (fs.existsSync (ImageFile.original fname) &&
              !fs.unlinkFails (ImageFile.original fname)) = true
         then [ImageFile.original fname] else []) ++
        (if (fs.existsSync (ImageFile.thumbnail fname) &&
              !fs.unlinkFails (ImageFile.thumbnail fname)) = true
         then [ImageFile.thumbnail fname] else []) ∧
      (fs.existsSync (ImageFile.original fname) = false →
        fs.existsSync (ImageFile.thumbnail fname) = false →
        deleteProductImage fs (some s) = (fs, ⟨true, [], []⟩))) :=
  ⟨fun rp h => deleteProductImage_falsy fs rp h,
   fun s h1 h2 => deleteProductImage_invalid fs s h1 h2,
   fun s fname hex =>
     ⟨(deleteProductImage_valid_spec fs s fname hex).1,
      (deleteProductImage_valid_spec fs s fname hex).2,
      fun ho ht =>
        deleteProductImage_absent fs s fname hex (deleteProductImage_fname_ne hex) ho ht⟩⟩

theorem deleteProductImage_spec_witness :
    (deleteProductImage fsPic (some "/images/products/uploads/pic.jpg")).2.deletedFiles =
      [ImageFile.original "pic.jpg", ImageFile.thumbnail "pic.jpg"] := by
  have h := ((deleteProductImage_spec fsPic).2.2 "/images/products/uploads/pic.jpg"
    "pic.jpg" (by decide)).2.1
  rw [h]
  decide

/-- C6 (counterexample): with a failure-free filesystem, the first call on the
path `x.jpg` — which does not start with the expected prefix — already returns
`success = false`, refuting the claim for arbitrary `relativePath`. -/
theorem delete_twice_counterexample :
    fsEmpty.unlinkFails = (fun _ => false) ∧
    (deleteProductImage fsEmpty (some "x.jpg")).2.success = false ∧
    (deleteProductImage (deleteProductImage fsEmpty (some "x.jpg")).1
        (some "x.jpg")).2.success = false :=
  ⟨rfl, by decide, by decide⟩

/-- C6 (amended): for a falsy path or one under the expected prefix, with
deletions succeeding when attempted, two successive calls both report
`success = true` and the second call deletes nothing. -/
theorem delete_twice_idempotent (fs : FileSystem) (rp : Option String)
    (hnofail : fs.unlinkFails = fun _ => false)
    (hok : truthy rp = false ∨
      ∃ s, rp = some s ∧ startsWith s "/images/products/" = true) :
    (deleteProductImage fs rp).2.success = true ∧
    (deleteProductImage (deleteProductImage fs rp).1 rp).2.success = true ∧
    (deleteProductImage (deleteProductImage fs rp).1 rp).2.deletedFiles = [] := by
  rcases hok with h | ⟨s, rfl, hsw⟩
  · rw [deleteProductImage_falsy fs rp h]
    rw [deleteProductImage_falsy fs rp h]
    exact ⟨rfl, rfl, rfl⟩
  · obtain ⟨c, hcmem, hcne⟩ := startsWith_products_ne_all_slash hsw
    have h1 : s.isEmpty = false := isEmpty_false_of_mem hcmem
    have hex := extractFilenameFromPath_valid s h1 hsw
    have hsucc1 : (deleteProductImage fs (some s)).2.success = true := by
      have hiff := (deleteProductImage_valid_spec fs s (basename s) hex).1
      rw [hnofail] at hiff
      simp at hiff
      exact hiff
    obtain ⟨hpu, hpo, hpt⟩ := deleteProductImage_post fs s (basename s) hex
    have ho1 : (deleteProductImage fs (some s)).1.existsSync
        (ImageFile.original (basename s)) = false := by
      rw [hpo, hnofail]
      simp
    have ht1 : (deleteProductImage fs (some s)).1.existsSync
        (ImageFile.thumbnail (basename s)) = false := by
      rw [hpt, hnofail]
      simp
    have h2 := deleteProductImage_absent (deleteProductImage fs (some s)).1 s (basename s)
      hex (deleteProductImage_fname_ne hex) ho1 ht1
    rw [h2]
    exact ⟨hsucc1, rfl, rfl⟩

theorem delete_twice_idempotent_witness :
    (deleteProductImage fsPic (some "/images/products/uploads/pic.jpg")).2.success = true ∧
    (deleteProductImage (deleteProductImage fsPic (some "/images/products/uploads/pic.jpg")).1
        (some "/images/products/uploads/pic.jpg")).2.success = true ∧
    (deleteProductImage (deleteProductImage fsPic (some "/images/products/uploads/pic.jpg")).1
        (some "/images/products/uploads/pic.jpg")).2.deletedFiles = [] :=
  delete_twice_idempotent fsPic _ rfl
    (Or.inr ⟨"/images/products/uploads/pic.jpg", rfl, by decide⟩)


/-- C7: when the new path is falsy, or its filename does not resolve under
the expected prefix, or the file is absent on disk, `replaceProductImage`
fails with the corresponding single error, attempts no cleanup, and leaves
the filesystem unchanged. -/
theorem replaceProductImage_validation (fs : FileSystem) (old : Option String) :
    (∀ np, truthy np = false →
      replaceProductImage fs old np =
        (fs, ⟨false, np, ⟨false, false, [], []⟩, ["New image path is required"]⟩)) ∧
    (∀ s, s.isEmpty = false → startsWith s "/images/products/" = false →
      replaceProductImage fs old (some s) =
        (fs, ⟨false, some s, ⟨false, false, [], []⟩, ["Invalid new image path provided"]⟩)) ∧
    (∀ s, s.isEmpty = false → startsWith s "/images/products/" = true →
      fs.existsSync (ImageFile.original (basename s)) = false →
      replaceProductImage fs old (some s) =
        (fs, ⟨false, some s, ⟨false, false, [], []⟩, ["New image file does not exist"]⟩)) := by
  refine ⟨fun np h => ?_, fun s h1 h2 => ?_, fun s h1 h2 h3 => ?_⟩
  · unfold replaceProductImage
    rw [if_pos h]
  · unfold replaceProductImage
    rw [if_neg (by simp [truthy, h1])]
    have hex : extractFilenameFromPath (some s) = none := by
      unfold extractFilenameFromPath
      dsimp only
      rw [if_neg (by simp [h1]), if_neg (by simp [h2])]
    rw [hex]
  · unfold replaceProductImage
    rw [if_neg (by simp [truthy, h1]), extractFilenameFromPath_valid s h1 h2]
    dsimp only
    rw [if_neg (by simp [basename_ne_empty (startsWith_products_ne_all_slash h2)]),
      if_pos h3]

theorem replaceProductImage_validation_witness :
    replaceProductImage fsEmpty none (some "/images/products/uploads/missing.jpg") =
      (fsEmpty, ⟨false, some "/images/products/uploads/missing.jpg",
        ⟨false, false, [], []⟩, ["New image file does not exist"]⟩) :=
  (replaceProductImage_validation fsEmpty none).2.2 "/images/products/uploads/missing.jpg"
    (by decide) (by decide) (by decide)

theorem replaceProductImage_valid_new (fs : FileSystem) (old : Option String) (np : String)
    (hne : np.isEmpty = false) (hsw : startsWith np "/images/products/" = true)
    (hex : fs.existsSync (ImageFile.original (basename np)) = true) :
    replaceProductImage fs old (some np) =
      (if truthy old ∧ old ≠ some np then
        ((deleteProductImage fs old).1,
         ⟨true, some np,
          ⟨true, (deleteProductImage fs old).2.success,
           (deleteProductImage fs old).2.deletedFiles,
           (deleteProductImage fs old).2.errors⟩, []⟩)
       else (fs, ⟨true, some np, ⟨false, false, [], []⟩, []⟩)) := by
  unfold replaceProductImage
  rw [if_neg (by simp [truthy, hne]), extractFilenameFromPath_valid np hne hsw]
  dsimp only
  rw [if_neg (by simp [basename_ne_empty (startsWith_products_ne_all_slash hsw)]),
    if_neg (by simp [hex])]

/-- C2: whenever the new image path resolves to an existing file,
`replaceProductImage` reports overall success with the new path, regardless
of the old image; in particular an old image with no files on disk yields a
cleanup record that is attempted, successful and empty. -/
theorem replaceProductImage_success (fs : FileSystem) (old : Option String) (np : String)
    (hne : np.isEmpty = false) (hsw : startsWith np "/images/products/" = true)
    (hex : fs.existsSync (ImageFile.original (basename np)) = true) :
    ((replaceProductImage fs old (some np)).2.success = true ∧
     (replaceProductImage fs old (some np)).2.newImagePath = some np) ∧
    (∀ o, old = some o → o.isEmpty = false → startsWith o "/images/products/" = true →
      fs.existsSync (ImageFile.original (basename o)) = false →
      fs.existsSync (ImageFile.thumbnail (basename o)) = false →
      (replaceProductImage fs old (some np)).2.oldImageCleanup = ⟨true, true, [], []⟩) := by
  rw [replaceProductImage_valid_new fs old np hne hsw hex]
  constructor
  · split <;> exact ⟨rfl, rfl⟩
  · intro o hold h1 h2 ho ht
    subst hold
    have hnp : o ≠ np := by
      intro heq
      rw [heq] at ho
      rw [ho] at hex
      exact absurd hex (by simp)
    rw [if_pos ⟨by simp [truthy, h1], by simpa using hnp⟩]
    have hdel := deleteProductImage_absent fs o (basename o)
      (extractFilenameFromPath_valid o h1 h2)
      (basename_ne_empty (startsWith_products_ne_all_slash h2)) ho ht
    rw [hdel]

theorem replaceProductImage_success_witness :
    (replaceProductImage fsNew (some "/images/products/uploads/old.jpg")
        (some "/images/products/uploads/new.jpg")).2.success = true ∧
    (replaceProductImage fsNew (some "/images/products/uploads/old.jpg")
        (some "/images/products/uploads/new.jpg")).2.oldImageCleanup =
      ⟨true, true, [], []⟩ :=
  ⟨(replaceProductImage_success fsNew (some "/images/products/uploads/old.jpg")
      "/images/products/uploads/new.jpg" (by decide) (by decide) (by decide)).1.1,
   (replaceProductImage_success fsNew (some "/images/products/uploads/old.jpg")
      "/images/products/uploads/new.jpg" (by decide) (by decide) (by decide)).2
     "/images/products/uploads/old.jpg" rfl (by decide) (by decide) (by decide) (by decide)⟩

end Shop

namespace Shop

/-! ## Filename generation lemmas -/

theorem digitChar_bound {d : Nat} (h : d < 10) :
    '0' ≤ digitChar d ∧ digitChar d ≤ '9' := by
  interval_cases d <;> exact ⟨by decide, by decide⟩

theorem digitVal_digitChar {d : Nat} (h : d < 10) :
    (digitChar d).toNat - '0'.toNat = d := by
  interval_cases d <;> decide

theorem natDigits_mem (n : Nat) :
    ∀ acc c, c ∈ natDigits n acc → c ∈ acc ∨ ('0' ≤ c ∧ c ≤ '9') := by
  induction n using Nat.strong_induction_on with
  | _ n ih =>
    intro acc c hc
    unfold natDigits at hc
    split at hc
    · next h =>
      rcases List.mem_cons.mp hc with h1 | h1
      · exact Or.inr (h1 ▸ digitChar_bound h)
      · exact Or.inl h1
    · next h =>
      have hlt : n / 10 < n := Nat.div_lt_self (by omega) (by omega)
      rcases ih (n / 10) hlt _ c hc with h1 | h1
      · rcases List.mem_cons.mp h1 with h2 | h2
        · exact Or.inr (h2 ▸ digitChar_bound (Nat.mod_lt n (by omega)))
        · exact Or.inl h2
      · exact Or.inr h1

theorem natRepr_no_dash (n : Nat) : '-' ∉ (natRepr n).data := by
  intro hmem
  rcases natDigits_mem n [] '-' hmem with h | h
  · simp at h
  · exact absurd h.1 (by decide)

theorem natDigits_append (n : Nat) :
    ∀ acc, natDigits n acc = natDigits n [] ++ acc := by
  induction n using Nat.strong_induction_on with
  | _ n ih =>
    intro acc
    by_cases h : n < 10
    · rw [natDigits, dif_pos h]
      conv_rhs => rw [natDigits, dif_pos h]
      rfl
    · have hlt : n / 10 < n := Nat.div_lt_self (by omega) (by omega)
      rw [natDigits, dif_neg h, ih (n / 10) hlt]
      conv_rhs => rw [natDigits, dif_neg h, ih (n / 10) hlt]
      simp

/-- Fold computing the numeric value of a digit string. -/
theorem digitsVal_natRepr (n : Nat) :
    (natRepr n).data.foldl (fun a c => a * 10 + (c.toNat - '0'.toNat)) 0 = n := by
  induction n using Nat.strong_induction_on with
  | _ n ih =>
    by_cases h : n < 10
    · show (natDigits n []).foldl (fun a c => a * 10 + (c.toNat - '0'.toNat)) 0 = n
      rw [natDigits, dif_pos h]
      simpa using digitVal_digitChar h
    · have hlt : n / 10 < n := Nat.div_lt_self (by omega) (by omega)
      show (natDigits n []).foldl _ 0 = n
      rw [natDigits, dif_neg h, natDigits_append (n / 10)]
      rw [List.foldl_append]
      have ihv : (natDigits (n / 10) []).foldl
          (fun a c => a * 10 + (c.toNat - '0'.toNat)) 0 = n / 10 := ih (n / 10) hlt
      show ((natDigits (n / 10) []).foldl
          (fun a c => a * 10 + (c.toNat - '0'.toNat)) 0) * 10 +
          ((digitChar (n % 10)).toNat - '0'.toNat) = n
      rw [ihv, digitVal_digitChar (Nat.mod_lt n (by omega))]
      omega

theorem natRepr_inj {m n : Nat} (h : natRepr m = natRepr n) : m = n := by
  have hm := digitsVal_natRepr m
  have hn := digitsVal_natRepr n
  rw [← hm, ← hn, String.ext_iff.mp h]

theorem append_dash_inj :
    ∀ (xs ys as bs : List Char), '-' ∉ xs → '-' ∉ ys →
      xs ++ '-' :: as = ys ++ '-' :: bs → xs = ys ∧ as = bs := by
  intro xs
  induction xs with
  | nil =>
    intro ys as bs _ hy h
    cases ys with
    | nil => simpa using h
    | cons y yt =>
      simp only [List.nil_append, List.cons_append, List.cons.injEq] at h
      exact absurd (h.1 ▸ List.mem_cons_self y yt) (h.1 ▸ hy)
  | cons x xt ih =>
    intro ys as bs hx hy h
    cases ys with
    | nil =>
      simp only [List.nil_append, List.cons_append, List.cons.injEq] at h
      exact absurd (h.1 ▸ List.mem_cons_self x xt) (fun hm => hx (h.1 ▸ hm))
    | cons y yt =>
      simp only [List.cons_append, List.cons.injEq] at h
      obtain ⟨hxy, hrest⟩ := h
      have := ih yt as bs (fun hm => hx (List.mem_cons_of_mem x hm))
        (fun hm => hy (List.mem_cons_of_mem y hm)) hrest
      exact ⟨by rw [hxy, this.1], this.2⟩


/-- C9: two calls of `generateUniqueFilename` on the same input whose
(timestamp, 16-character random hash) pairs differ return different
filenames; in particular any number of such calls yields pairwise distinct
outputs. -/
theorem generateUniqueFilename_injective (input : String) (t1 t2 : Nat) (r1 r2 : String)
    (hl1 : r1.data.length = 16) (hl2 : r2.data.length = 16)
    (hne : (t1, r1) ≠ (t2, r2)) :
    generateUniqueFilename t1 r1 input ≠ generateUniqueFilename t2 r2 input := by
  intro h
  unfold generateUniqueFilename at h
  have hd := congrArg String.data h
  have hdash : ("-" : String).data = ['-'] := rfl
  simp only [String.data_append, hdash, List.append_assoc, List.singleton_append] at hd
  obtain ⟨ht, hrest⟩ := append_dash_inj _ _ _ _ (natRepr_no_dash t1) (natRepr_no_dash t2) hd
  obtain ⟨hr, _⟩ := List.append_inj hrest (hl1.trans hl2.symm)
  exact hne (by rw [natRepr_inj (String.ext ht), String.ext hr])

theorem generateUniqueFilename_injective_witness :
    "aaaaaaaaaaaaaaaa".data.length = 16 ∧
    generateUniqueFilename 1 "aaaaaaaaaaaaaaaa" "photo.jpg" ≠
      generateUniqueFilename 2 "aaaaaaaaaaaaaaaa" "photo.jpg" :=
  ⟨by decide,
   generateUniqueFilename_injective "photo.jpg" 1 2 "aaaaaaaaaaaaaaaa" "aaaaaaaaaaaaaaaa"
     (by decide) (by decide) (by decide)⟩

theorem mem_collapseDashes : ∀ (l : List Char) (c : Char), c ∈ collapseDashes l → c ∈ l := by
  intro l
  induction l with
  | nil => simp [collapseDashes]
  | cons a t ih =>
    cases t with
    | nil => simp [collapseDashes]
    | cons b u =>
      intro c hc
      unfold collapseDashes at hc
      split at hc
      · exact List.mem_cons_of_mem a (ih c hc)
      · rcases List.mem_cons.mp hc with h | h
        · exact h ▸ List.mem_cons_self a (b :: u)
        · exact List.mem_cons_of_mem a (ih c h)

theorem sanitizeChar_allowed (x : Char) :
    ('a' ≤ sanitizeChar x ∧ sanitizeChar x ≤ 'z') ∨
    ('0' ≤ sanitizeChar x ∧ sanitizeChar x ≤ '9') ∨
    sanitizeChar x = '.' ∨ sanitizeChar x = '-' := by
  unfold sanitizeChar
  dsimp only
  split
  · next h =>
    rcases h with h | h | h
    · exact Or.inl h
    · exact Or.inr (Or.inl h)
    · exact Or.inr (Or.inr (Or.inl h))
  · exact Or.inr (Or.inr (Or.inr rfl))

theorem collapseDashes_head (l : List Char) :
    ∀ c : Char, ∃ t, collapseDashes (c :: l) = c :: t := by
  induction l with
  | nil => exact fun c => ⟨[], rfl⟩
  | cons b u ih =>
    intro c
    unfold collapseDashes
    by_cases h : c = '-' ∧ b = '-'
    · rw [if_pos h]
      obtain ⟨t, ht⟩ := ih b
      exact ⟨t, by rw [ht, h.1, h.2]⟩
    · rw [if_neg h]
      exact ⟨collapseDashes (b :: u), rfl⟩

theorem collapseDashes_chain (l : List Char) :
    (collapseDashes l).Chain' (fun a b => ¬(a = '-' ∧ b = '-')) := by
  induction l with
  | nil => simp [collapseDashes]
  | cons a t ih =>
    cases t with
    | nil => simp [collapseDashes]
    | cons b u =>
      unfold collapseDashes
      by_cases h : a = '-' ∧ b = '-'
      · rw [if_pos h]
        exact ih
      · rw [if_neg h]
        obtain ⟨t2, ht2⟩ := collapseDashes_head u b
        rw [ht2]
        rw [ht2] at ih
        exact List.chain'_cons.mpr ⟨h, ih⟩

/-- C8: the generated filename decomposes as
timestamp, dash, random hash, dash, truncated stem, extension, where stem
and extension come from the sanitized input (lower-cased, characters
outside the allowed set replaced by dashes, dash runs collapsed) and the
stem is cut to at most 40 characters. -/
theorem generateUniqueFilename_format (timestamp : Nat) (randomHash input : String) :
    ∃ stem ext,
      generateUniqueFilename timestamp randomHash input =
        natRepr timestamp ++ "-" ++ randomHash ++ "-" ++ stem ++ ext ∧
      stem = ⟨(nameWithoutExt (sanitize input)).data.take 40⟩ ∧
      ext = extname (sanitize input) ∧
      stem.data.length ≤ 40 ∧
      nameWithoutExt (sanitize input) ++ extname (sanitize input) = sanitize input ∧
      (∀ c ∈ (sanitize input).data,
        ('a' ≤ c ∧ c ≤ 'z') ∨ ('0' ≤ c ∧ c ≤ '9') ∨ c = '.' ∨ c = '-') ∧
      (sanitize input).data.Chain' (fun a b => ¬(a = '-' ∧ b = '-')) := by
  refine ⟨_, _, rfl, rfl, rfl, ?_, ?_, ?_, ?_⟩
  · exact List.length_take_le 40 (nameWithoutExt (sanitize input)).data
  · unfold nameWithoutExt extname
    cases hld : lastDotIdx (sanitize input).data with
    | none =>
      apply String.ext
      simp
    | some d =>
      dsimp only
      by_cases h0 : d = 0
      · rw [if_pos h0, if_pos h0]
        apply String.ext
        simp
      · rw [if_neg h0, if_neg h0]
        by_cases hdd : (sanitize input).data = ['.', '.']
        · rw [if_pos hdd, if_pos hdd]
          apply String.ext
          simp
        · rw [if_neg hdd, if_neg hdd]
          apply String.ext
          simp
  · intro c hc
    have hmem := mem_collapseDashes _ c hc
    obtain ⟨x, _, hx⟩ := List.mem_map.mp hmem
    exact hx ▸ sanitizeChar_allowed x
  · exact collapseDashes_chain _

end Shop
